import Mathlib

/-
Verification of the Test Session Engine of the ecet_prep repository.

The definitions below are a shallow embedding of the TypeScript source:
  * src/services/gemini.ts            (the batched question generator)
  * src/components/TestEnvironment.tsx, first component
      (the placeholder-slot variant: null slots, incremental batch fill,
       handleSubmit, handleBookmark, option buttons, palette navigation)
  * src/components/TestEnvironment.tsx, second component, and unnamed/part_007
      (the append variant with the gated "Unlock Next 50" button)
Asynchronous I/O outcomes (Gemini responses, api.* calls) enter the model as
explicit parameters; React state updates become explicit state passing.
-/

namespace EcetPrep

/-- Difficulty levels of a question (questionSchema in gemini.ts). -/
inductive Difficulty
  | easy
  | medium
  | hard
  deriving DecidableEq

/-- A delivered question: text, four options, correctAnswer index, explanation,
subject and difficulty (questionSchema in gemini.ts / Question in types). -/
structure Question where
  text : String
  options : List String
  correctAnswer : Nat
  explanation : String
  subject : String
  difficulty : Difficulty
  deriving DecidableEq

/-- The body of the batch loop of generateQuestions (gemini.ts lines 72-107).
The index i is the batch number, fuel counts the remaining iterations of the
for loop, acc is allQuestions. The outcome of one batch request is
Except.ok qs (the response parsed into qs; an absent text contributes nothing,
which is Except.ok with an empty list) or Except.error () (the request or the
parse threw). On a throw with an empty acc the whole function rethrows,
otherwise the loop breaks and the partial acc is returned. -/
def generateQuestionsGo (count : Nat) (results : Nat → Except Unit (List Question)) :
    Nat → Nat → List Question → Except Unit (List Question)
  | _, 0, acc => Except.ok acc
  | i, fuel + 1, acc =>
    if min 25 (count - acc.length) = 0 then Except.ok acc
    else
      match results i with
      | Except.ok qs => generateQuestionsGo count results (i + 1) fuel (acc ++ qs)
      | Except.error e => if acc.length = 0 then Except.error e else Except.ok acc

/-- generateQuestions (gemini.ts lines 27-110): batchSize is 25, the loop runs
ceil(count / 25) times and the result is allQuestions.slice(0, count). -/
def generateQuestions (count : Nat) (results : Nat → Except Unit (List Question)) :
    Except Unit (List Question) :=
  (generateQuestionsGo count results 0 ((count + 24) / 25) []).map (List.take count)

theorem generateQuestionsGo_error (count : Nat) (results : Nat → Except Unit (List Question)) :
    ∀ (fuel i : Nat) (acc : List Question) (e : Unit),
      generateQuestionsGo count results i fuel acc = Except.error e →
      acc = [] ∧ ∃ k, i ≤ k ∧ k < i + fuel ∧ results k = Except.error () ∧
        ∀ j, i ≤ j → j < k → results j = Except.ok [] := by
  intro fuel
  induction fuel with
  | zero =>
    intro i acc e h
    simp [generateQuestionsGo] at h
  | succ n ih =>
    intro i acc e h
    rw [generateQuestionsGo] at h
    by_cases hmin : min 25 (count - acc.length) = 0
    · simp [hmin] at h
    · rw [if_neg hmin] at h
      cases hr : results i with
      | ok qs =>
        rw [hr] at h
        obtain ⟨hnil, k, hik, hkf, hk, hall⟩ := ih (i + 1) (acc ++ qs) e h
        have hacc : acc = [] := by
          cases List.append_eq_nil.mp hnil; assumption
        have hqs : qs = [] := by
          cases List.append_eq_nil.mp hnil; assumption
        refine ⟨hacc, k, by omega, by omega, hk, ?_⟩
        intro j hij hjk
        rcases Nat.eq_or_lt_of_le hij with heq | hlt
        · rw [← heq, hr, hqs]
        · exact hall j hlt hjk
      | error e' =>
        rw [hr] at h
        by_cases hlen : acc.length = 0
        · refine ⟨List.length_eq_zero.mp hlen, i, le_refl i, by omega, ?_, ?_⟩
          · rw [hr]
          · intro j hij hji; omega
        · simp [hlen] at h

/-- Claim C8: generateQuestions returns a sequence of length at most count;
when it throws, the failing batch saw zero collected questions (every batch the
loop examined before it succeeded with an empty list), so a failure after at
least one collected question yields the partial sequence instead of throwing. -/
theorem generateQuestions_partial_or_empty_failure :
    ∀ (count : Nat) (results : Nat → Except Unit (List Question)),
      (∀ qs, generateQuestions count results = Except.ok qs → qs.length ≤ count) ∧
      (∀ e, generateQuestions count results = Except.error e →
        ∃ k, k < (count + 24) / 25 ∧ results k = Except.error () ∧
          ∀ j, j < k → results j = Except.ok []) := by
  intro count results
  constructor
  · intro qs h
    unfold generateQuestions at h
    cases hgo : generateQuestionsGo count results 0 ((count + 24) / 25) [] with
    | ok a =>
      rw [hgo] at h
      simp [Except.map] at h
      rw [← h]
      simp
    | error e =>
      rw [hgo] at h
      simp [Except.map] at h
  · intro e h
    unfold generateQuestions at h
    cases hgo : generateQuestionsGo count results 0 ((count + 24) / 25) [] with
    | ok a =>
      rw [hgo] at h
      simp [Except.map] at h
    | error e' =>
      obtain ⟨-, k, -, hkf, hk, hall⟩ :=
        generateQuestionsGo_error count results ((count + 24) / 25) 0 [] e' hgo
      exact ⟨k, by omega, hk, fun j hj => hall j (Nat.zero_le j) hj⟩

/-- A sample question used by the concrete witnesses. -/
def qSample : Question :=
  { text := "sample",
    options := ["a", "b", "c", "d"],
    correctAnswer := 1,
    explanation := "because",
    subject := "Mathematics",
    difficulty := Difficulty.easy }

/-- A question source delivering two questions per batch. -/
def batchesTwo : Nat → Except Unit (List Question) := fun _ => Except.ok [qSample, qSample]

/-- A question source whose every batch request throws. -/
def batchesFail : Nat → Except Unit (List Question) := fun _ => Except.error ()

/-- Witness for C8 at concrete inputs: a count-3 run over two-question batches
stays within the bound, and an all-failing source at count 1 fails at a batch
with no predecessors. -/
theorem generateQuestions_partial_or_empty_failure_witness :
    ([qSample, qSample].length ≤ 3) ∧
    (∃ k, k < (1 + 24) / 25 ∧ batchesFail k = Except.error () ∧
      ∀ j, j < k → batchesFail j = Except.ok []) :=
  ⟨(generateQuestions_partial_or_empty_failure 3 batchesTwo).1 [qSample, qSample] rfl,
   (generateQuestions_partial_or_empty_failure 1 batchesFail).2 () rfl⟩

/-- Test kind from the route parameter (TestEnvironment.tsx line 26). -/
inductive TestType
  | Full
  | Subject
  deriving DecidableEq

/-- totalQuestionsCount (TestEnvironment.tsx line 41): 200 for a Full mock,
30 for a subject test. -/
def totalQuestionsCount : TestType → Nat
  | TestType.Full => 200
  | TestType.Subject => 30

/-- The placeholder initialisation of loadWindow(0) (TestEnvironment.tsx line 48):
an array of totalQuestionsCount null slots. none models a Locked slot, some q a
Loaded one. -/
def initialSlots (t : TestType) : List (Option Question) :=
  List.replicate (totalQuestionsCount t) none

/-- The scan of the while loop in the batch callback (TestEnvironment.tsx line 68),
on the part of the slot array from the start offset on: the number of leading
Loaded slots, stopping at the first null or at the end of the array. -/
def firstNullGo : List (Option Question) → Nat
  | [] => 0
  | none :: _ => 0
  | some _ :: rest => firstNullGo rest + 1

/-- The firstNull of the batch callback (TestEnvironment.tsx lines 67-68): the
first index at or after start whose slot is still null, or an index at or past
the array length when no such slot exists (the JS loop exits when next[firstNull]
is undefined or firstNull reaches next.length). -/
def firstNullFrom (next : List (Option Question)) (start : Nat) : Nat :=
  start + firstNullGo (next.drop start)

/-- Writing one arriving question (TestEnvironment.tsx lines 64-70): find the
first null slot at or after the window start offset and set it; when none exists
the question is discarded because the guard firstNull < next.length fails. The
local targetIdx computed on line 65 of the source is never used. -/
def fillOne (next : List (Option Question)) (start : Nat) (q : Question) :
    List (Option Question) :=
  if firstNullFrom next start < next.length then
    next.set (firstNullFrom next start) (some q)
  else next

/-- One sub-batch arrival (TestEnvironment.tsx lines 62-72): batch.forEach writes
each question, in order, into the first still-null slot at or after startOffset. -/
def fillBatch (start : Nat) (batch : List Question) (prev : List (Option Question)) :
    List (Option Question) :=
  batch.foldl (fun next q => fillOne next start q) prev

theorem firstNullGo_le_length : ∀ l : List (Option Question), firstNullGo l ≤ l.length := by
  intro l
  induction l with
  | nil => simp [firstNullGo]
  | cons s rest ih =>
    cases s with
    | none => simp [firstNullGo]
    | some q => simp only [firstNullGo, List.length_cons]; omega

theorem getElem?_of_lt_firstNullGo :
    ∀ (l : List (Option Question)) (j : Nat), j < firstNullGo l →
      ∃ q, l[j]? = some (some q) := by
  intro l
  induction l with
  | nil => intro j hj; simp [firstNullGo] at hj
  | cons s rest ih =>
    intro j hj
    cases s with
    | none => simp [firstNullGo] at hj
    | some q =>
      cases j with
      | zero => exact ⟨q, by simp⟩
      | succ m =>
        simp only [firstNullGo] at hj
        simpa using ih m (by omega)

theorem getElem?_firstNullGo :
    ∀ l : List (Option Question), firstNullGo l < l.length →
      l[firstNullGo l]? = some none := by
  intro l
  induction l with
  | nil => intro h; simp [firstNullGo] at h
  | cons s rest ih =>
    intro h
    cases s with
    | none => simp [firstNullGo]
    | some q =>
      simp only [firstNullGo, List.length_cons] at h ⊢
      simpa using ih (by omega)

theorem firstNullFrom_loaded_before (next : List (Option Question)) (start : Nat) :
    ∀ j, start ≤ j → j < firstNullFrom next start → ∃ q, next[j]? = some (some q) := by
  intro j hsj hj
  obtain ⟨m, rfl⟩ := Nat.exists_eq_add_of_le hsj
  have hm : m < firstNullGo (next.drop start) := by
    simp only [firstNullFrom] at hj; omega
  obtain ⟨q, hq⟩ := getElem?_of_lt_firstNullGo (next.drop start) m hm
  refine ⟨q, ?_⟩
  rw [← hq, List.getElem?_drop]

theorem firstNullFrom_is_null (next : List (Option Question)) (start : Nat) :
    firstNullFrom next start < next.length →
      next[firstNullFrom next start]? = some none := by
  intro h
  have hlen : (next.drop start).length = next.length - start := List.length_drop start next
  have hm : firstNullGo (next.drop start) < (next.drop start).length := by
    simp only [firstNullFrom] at h; omega
  have := getElem?_firstNullGo (next.drop start) hm
  rw [List.getElem?_drop] at this
  simpa [firstNullFrom] using this

theorem fillOne_length (next : List (Option Question)) (start : Nat) (q : Question) :
    (fillOne next start q).length = next.length := by
  unfold fillOne
  split_ifs <;> simp

theorem fillOne_preserves (next : List (Option Question)) (start : Nat) (q : Question) :
    ∀ (i : Nat) (q' : Question),
      next[i]? = some (some q') → (fillOne next start q)[i]? = some (some q') := by
  intro i q' hi
  unfold fillOne
  split_ifs with h
  · have hnull := firstNullFrom_is_null next start h
    have hne : firstNullFrom next start ≠ i := by
      intro heq; rw [heq, hi] at hnull; exact Option.noConfusion (Option.some.inj hnull)
    rw [List.getElem?_set_ne hne]
    exact hi
  · exact hi

theorem fillBatch_length (start : Nat) (batch : List Question) (prev : List (Option Question)) :
    (fillBatch start batch prev).length = prev.length := by
  induction batch generalizing prev with
  | nil => rfl
  | cons q rest ih =>
    simp only [fillBatch, List.foldl_cons] at *
    rw [ih (fillOne prev start q), fillOne_length]

theorem fillBatch_preserves (start : Nat) (batch : List Question) (prev : List (Option Question)) :
    ∀ (i : Nat) (q' : Question),
      prev[i]? = some (some q') → (fillBatch start batch prev)[i]? = some (some q') := by
  induction batch generalizing prev with
  | nil => intro i q' h; exact h
  | cons q rest ih =>
    intro i q' h
    simp only [fillBatch, List.foldl_cons] at *
    exact ih (fillOne prev start q) i q' (fillOne_preserves prev start q i q' h)

theorem fillOne_discard (prev : List (Option Question)) (start : Nat) (q : Question) :
    (∀ i, start ≤ i → i < prev.length → prev[i]? ≠ some none) →
      fillOne prev start q = prev := by
  intro hfull
  unfold fillOne
  rw [if_neg]
  intro hlt
  exact hfull (firstNullFrom prev start) (Nat.le_add_right start _) hlt
    (firstNullFrom_is_null prev start hlt)

/-- Claim C5: each arriving question is written into the first still-Locked
(null) slot at or after the window start offset — the target index is at least
the offset, every slot strictly between the offset and the target is already
Loaded, and the target slot was null — and a Loaded slot is never overwritten or
reverted by any later batch, whatever order batches arrive in. -/
theorem fill_first_locked_slot :
    ∀ (prev : List (Option Question)) (start : Nat) (q : Question),
      start ≤ firstNullFrom prev start ∧
      (∀ j, start ≤ j → j < firstNullFrom prev start → ∃ q', prev[j]? = some (some q')) ∧
      (firstNullFrom prev start < prev.length →
        prev[firstNullFrom prev start]? = some none ∧
        fillOne prev start q = prev.set (firstNullFrom prev start) (some q)) ∧
      (∀ (batch : List Question) (i : Nat) (q' : Question),
        prev[i]? = some (some q') → (fillBatch start batch prev)[i]? = some (some q')) := by
  intro prev start q
  refine ⟨Nat.le_add_right start _, firstNullFrom_loaded_before prev start, ?_, ?_⟩
  · intro hlt
    exact ⟨firstNullFrom_is_null prev start hlt, by unfold fillOne; rw [if_pos hlt]⟩
  · intro batch i q' h
    exact fillBatch_preserves start batch prev i q' h

/-- A second sample question for the witnesses. -/
def qSample2 : Question :=
  { text := "sample2",
    options := ["p", "q", "r", "s"],
    correctAnswer := 0,
    explanation := "since",
    subject := "Physics",
    difficulty := Difficulty.hard }

/-- Slot array for the C5 witness: slot 0 Loaded, slots 1 and 2 Locked. -/
def slotsPartial : List (Option Question) := [some qSample, none, none]

/-- Witness for C5 at a concrete input: with the window offset at 1 the arriving
question lands in slot 1, and the Loaded slot 0 is untouched by the batch. -/
theorem fill_first_locked_slot_witness :
    (fillOne slotsPartial 1 qSample2 = slotsPartial.set (firstNullFrom slotsPartial 1) (some qSample2)) ∧
    ((fillBatch 1 [qSample2] slotsPartial)[0]? = some (some qSample)) :=
  ⟨((fill_first_locked_slot slotsPartial 1 qSample2).2.2.1 (by decide)).2,
   (fill_first_locked_slot slotsPartial 1 qSample2).2.2.2 [qSample2] 0 qSample (by decide)⟩

/-- Claim C10: the slot array length is fixed at totalQuestionsCount (200 Full,
30 Subject) from initialisation on — no batch arrival grows or shrinks it — and
a question arriving when no null slot remains at or after the window offset is
silently discarded rather than appended. -/
theorem slot_array_fixed_length :
    (totalQuestionsCount TestType.Full = 200 ∧ totalQuestionsCount TestType.Subject = 30) ∧
    (∀ t, (initialSlots t).length = totalQuestionsCount t) ∧
    (∀ start batch prev, (fillBatch start batch prev).length = prev.length) ∧
    (∀ prev start q, (∀ i, start ≤ i → i < prev.length → prev[i]? ≠ some none) →
      fillOne prev start q = prev) := by
  refine ⟨⟨rfl, rfl⟩, ?_, ?_, ?_⟩
  · intro t; simp [initialSlots]
  · intro start batch prev; exact fillBatch_length start batch prev
  · intro prev start q h; exact fillOne_discard prev start q h

/-- Slot array for the C10 witness: a single Loaded slot and no Locked one. -/
def slotsLoaded : List (Option Question) := [some qSample]

/-- Witness for C10 at a concrete input: a question arriving into a window with
no remaining null slot is discarded, and a batch leaves the length unchanged. -/
theorem slot_array_fixed_length_witness :
    (fillOne slotsLoaded 0 qSample2 = slotsLoaded) ∧
    ((fillBatch 0 [qSample2, qSample2] slotsLoaded).length = slotsLoaded.length) :=
  ⟨slot_array_fixed_length.2.2.2 slotsLoaded 0 qSample2
    (by
      intro i h0 h1
      have hi : i = 0 := by simp [slotsLoaded] at h1; omega
      subst hi; decide),
   slot_array_fixed_length.2.2.1 0 [qSample2, qSample2] slotsLoaded⟩

/-- State of the placeholder-slot variant of TestEnvironment
(TestEnvironment.tsx lines 29-38): questions is the slot array (none is a
Locked slot), answers and bookmarked model the Record objects as total lookup
functions, saved logs each api.tests.save call as a (score, total) pair, and
aborted records the navigate to /dashboard performed by the load error handler. -/
structure SlotSession where
  testType : TestType
  questions : List (Option Question)
  currentIndex : Nat
  currentWindow : Nat
  answers : Nat → Option Nat
  isSubmitted : Bool
  bookmarked : Nat → Bool
  timeLeft : Int
  saved : List (Nat × Nat)
  aborted : Bool

/-- The score computed by handleSubmit (TestEnvironment.tsx lines 133-136):
filter the null slots out (validQuestions) and count the positions idx WITHIN
THE FILTERED LIST whose recorded answer equals that question's correctAnswer.
An absent answer compares unequal, as undefined does against a number. -/
def submitScore (questions : List (Option Question)) (answers : Nat → Option Nat) : Nat :=
  ((questions.filterMap id).enum).countP
    (fun p => decide (answers p.1 = some p.2.correctAnswer))

/-- The total persisted by handleSubmit (TestEnvironment.tsx line 145):
validQuestions.length, the number of Loaded slots. -/
def submitTotal (questions : List (Option Question)) : Nat :=
  (questions.filterMap id).length

/-- The per-slot-index score of the claim wording: count the slot indices i
whose slot is Loaded and whose recorded answer equals that question's
correctAnswerIndex. The Test Summary reduce (TestEnvironment.tsx lines 456 and
460) runs this sum over the full slot array with the slot index; on a Locked
slot the source would dereference q.correctAnswer of null, so the summary is
only well defined when every slot is Loaded, where it agrees with this count
(the none case here contributes 0). -/
def slotScore (questions : List (Option Question)) (answers : Nat → Option Nat) : Nat :=
  (questions.enum).countP
    (fun p => match p.2 with
      | some q => decide (answers p.1 = some q.correctAnswer)
      | none => false)

/-- Math.round of a nonnegative ratio: the floor of x + 1/2 (half-up). -/
def jsRound (x : ℚ) : ℤ := ⌊x + 1 / 2⌋

/-- The Test Summary accuracy (TestEnvironment.tsx line 460):
Math.round(summary score / questions.length * 100) — the denominator is the full
slot array length, Locked slots included. -/
def summaryAccuracy (questions : List (Option Question)) (answers : Nat → Option Nat) : ℤ :=
  jsRound ((slotScore questions answers : ℚ) / (questions.length : ℚ) * 100)

/-- handleSubmit (TestEnvironment.tsx lines 131-151): sets isSubmitted and
persists (score, total) through api.tests.save; a persistence failure is only
logged, so the attempt record is appended either way. -/
def handleSubmitT (s : SlotSession) : SlotSession :=
  { s with isSubmitted := true,
           saved := s.saved ++ [(submitScore s.questions s.answers, submitTotal s.questions)] }

/-- The submit command at trigger level. Every route into handleSubmit checks
isSubmitted first: the expiry effect fires only when not isSubmitted
(TestEnvironment.tsx line 126), the Submit button is rendered only while not
isSubmitted (line 229), and the part_007 variant guards inside handleSubmit
itself with an early return (part_007 lines 81-82). -/
def submitTrigger (s : SlotSession) : SlotSession :=
  if s.isSubmitted then s else handleSubmitT s

theorem submitTrigger_isSubmitted (s : SlotSession) :
    (submitTrigger s).isSubmitted = true := by
  unfold submitTrigger
  by_cases h : s.isSubmitted
  · rwa [if_pos h]
  · rw [if_neg h]; rfl

theorem submitTrigger_fixed (s : SlotSession) (h : s.isSubmitted = true) :
    submitTrigger s = s := by
  unfold submitTrigger
  rw [if_pos h]

/-- Claim C2: a session already Submitted ignores further submit triggers (no
state change, hence no second persisted attempt), and firing the submit trigger
any positive number of times leaves exactly the state of firing it once — the
same score, total and saved attempt log. -/
theorem submit_idempotent :
    (∀ s : SlotSession, s.isSubmitted = true → submitTrigger s = s) ∧
    (∀ (s : SlotSession) (n : Nat), submitTrigger^[n + 1] s = submitTrigger s) := by
  constructor
  · exact fun s h => submitTrigger_fixed s h
  · have hfix : ∀ (m : Nat) (t : SlotSession), t.isSubmitted = true →
        submitTrigger^[m] t = t := by
      intro m
      induction m with
      | zero => intro t _; rfl
      | succ k ih =>
        intro t ht
        rw [Function.iterate_succ_apply, submitTrigger_fixed t ht, ih t ht]
    intro s n
    rw [Function.iterate_succ_apply, hfix n (submitTrigger s) (submitTrigger_isSubmitted s)]

/-- An everywhere-absent answer map (a fresh Record). -/
def answersEmpty : Nat → Option Nat := fun _ => none

/-- An empty bookmark record. -/
def bookmarksEmpty : Nat → Bool := fun _ => false

/-- A concrete already-submitted subject session. -/
def sessionSubmitted : SlotSession :=
  { testType := TestType.Subject,
    questions := [some qSample],
    currentIndex := 0,
    currentWindow := 0,
    answers := answersEmpty,
    isSubmitted := true,
    bookmarked := bookmarksEmpty,
    timeLeft := 0,
    saved := [(0, 1)],
    aborted := false }

/-- Witness for C2: a further submit trigger on a concrete submitted session is
the identity. -/
theorem submit_idempotent_witness : submitTrigger sessionSubmitted = sessionSubmitted :=
  submit_idempotent.1 sessionSubmitted rfl

/-- selectOption (TestEnvironment.tsx lines 289-293): the option buttons exist
only when the current slot is Loaded (line 253 renders the Locked pane
otherwise) and carry disabled once isSubmitted (line 292); a click replaces
answers[currentIndex] with the chosen option index by object spread. -/
def selectOption (s : SlotSession) (o : Nat) : SlotSession :=
  if s.isSubmitted then s
  else
    match s.questions.getD s.currentIndex none with
    | none => s
    | some _ =>
      { s with answers := fun j => if j = s.currentIndex then some o else s.answers j }

/-- Claim C4: once the session is submitted, a selectOption call is ignored and
mutates nothing — in particular the AnswerMap observed at submission time is the
one used for review. -/
theorem selectOption_after_submit_noop :
    ∀ (s : SlotSession) (o : Nat), s.isSubmitted = true → selectOption s o = s := by
  intro s o h
  unfold selectOption
  rw [if_pos h]

/-- Witness for C4: on a concrete submitted session, selecting option 2 is the
identity. -/
theorem selectOption_after_submit_noop_witness :
    selectOption sessionSubmitted 2 = sessionSubmitted :=
  selectOption_after_submit_noop sessionSubmitted 2 rfl

/-- handleBookmark (TestEnvironment.tsx lines 153-162): a null (Locked or out
of range) slot returns early; otherwise api.bookmarks.add runs and on success
(apiOk) bookmarked[idx] is set to true. The path never consults isSubmitted;
in the UI the button is disabled only when the slot is already bookmarked
(line 264). -/
def handleBookmark (apiOk : Bool) (s : SlotSession) (idx : Nat) : SlotSession :=
  match s.questions.getD idx none with
  | none => s
  | some _ =>
    if apiOk then
      { s with bookmarked := fun j => if j = idx then true else s.bookmarked j }
    else s

/-- Claim C9: bookmarking is independent of the Submitted state — flipping
isSubmitted does not change what a bookmark call records, a successful call on
a Loaded slot records the bookmark, already-recorded bookmarks survive any
bookmark call, and submission leaves the bookmark set unchanged. -/
theorem bookmark_independent_of_submission :
    ∀ (s : SlotSession) (idx : Nat) (apiOk b : Bool),
      ((handleBookmark apiOk { s with isSubmitted := b } idx).bookmarked
        = (handleBookmark apiOk s idx).bookmarked) ∧
      (apiOk = true → (s.questions.getD idx none).isSome = true →
        (handleBookmark apiOk s idx).bookmarked idx = true) ∧
      (∀ j, s.bookmarked j = true → (handleBookmark apiOk s idx).bookmarked j = true) ∧
      ((submitTrigger s).bookmarked = s.bookmarked) := by
  intro s idx apiOk b
  refine ⟨?_, ?_, ?_, ?_⟩
  · unfold handleBookmark
    cases s.questions.getD idx none with
    | none => rfl
    | some q => cases apiOk <;> rfl
  · intro hok hsome
    unfold handleBookmark
    cases hq : s.questions.getD idx none with
    | none => rw [hq] at hsome; simp at hsome
    | some q => subst hok; simp
  · intro j hj
    unfold handleBookmark
    cases s.questions.getD idx none with
    | none => exact hj
    | some q =>
      cases apiOk with
      | false => exact hj
      | true =>
        simp only
        by_cases hji : j = idx <;> simp [hji, hj]
  · unfold submitTrigger
    by_cases h : s.isSubmitted
    · rw [if_pos h]
    · rw [if_neg h]; rfl

/-- A concrete active (not yet submitted) subject session with slot 0 Loaded
and slot 5 already bookmarked. -/
def sessionActive : SlotSession :=
  { testType := TestType.Subject,
    questions := [some qSample],
    currentIndex := 0,
    currentWindow := 0,
    answers := answersEmpty,
    isSubmitted := false,
    bookmarked := fun j => decide (j = 5),
    timeLeft := 100,
    saved := [],
    aborted := false }

/-- Witness for C9 on a concrete session: bookmarking slot 0 while the session
is flipped to Submitted records it exactly as when active, and the earlier
bookmark on slot 5 persists. -/
theorem bookmark_independent_of_submission_witness :
    ((handleBookmark true { sessionActive with isSubmitted := true } 0).bookmarked
      = (handleBookmark true sessionActive 0).bookmarked) ∧
    ((handleBookmark true sessionActive 0).bookmarked 0 = true) ∧
    ((handleBookmark true sessionActive 0).bookmarked 5 = true) ∧
    ((submitTrigger sessionActive).bookmarked = sessionActive.bookmarked) :=
  ⟨(bookmark_independent_of_submission sessionActive 0 true true).1,
   (bookmark_independent_of_submission sessionActive 0 true true).2.1 rfl rfl,
   (bookmark_independent_of_submission sessionActive 0 true true).2.2.1 5 (by decide),
   (bookmark_independent_of_submission sessionActive 0 true true).2.2.2⟩

/-- Slot array with slot 0 still Locked and slot 1 Loaded. -/
def slotsLockedFirst : List (Option Question) := [none, some qSample]

/-- Answer map answering slot 1 with option 1 (the correct option of qSample). -/
def answersSlotOne : Nat → Option Nat := fun j => if j = 1 then some 1 else none

/-- Claim C1 counterexample: with slot 0 Locked and slot 1 Loaded and answered
correctly, handleSubmit persists score 0 although exactly one Loaded slot's
recorded answer matches its correctAnswerIndex — the reduce in handleSubmit
looks answers up by position in the filtered list, not by slot index. -/
theorem scoring_counterexample :
    submitScore slotsLockedFirst answersSlotOne = 0 ∧
    slotScore slotsLockedFirst answersSlotOne = 1 ∧
    ¬ submitScore slotsLockedFirst answersSlotOne
        = slotScore slotsLockedFirst answersSlotOne := by
  decide

theorem length_filterMap_id_eq_countP :
    ∀ l : List (Option Question), (l.filterMap id).length = l.countP (fun s => s.isSome) := by
  intro l
  induction l with
  | nil => rfl
  | cons s rest ih =>
    cases s with
    | none => simpa [List.countP_cons] using ih
    | some q => simpa [List.countP_cons] using ih

theorem submitScore_enumFrom_allLoaded (answers : Nat → Option Nat) :
    ∀ (l : List (Option Question)) (n : Nat), (∀ s ∈ l, s.isSome = true) →
      ((l.filterMap id).enumFrom n).countP
          (fun p => decide (answers p.1 = some p.2.correctAnswer))
        = (l.enumFrom n).countP
            (fun p => match p.2 with
              | some q => decide (answers p.1 = some q.correctAnswer)
              | none => false) := by
  intro l
  induction l with
  | nil => intro n _; rfl
  | cons s rest ih =>
    intro n hall
    have hs : s.isSome = true := hall s (by simp)
    obtain ⟨q, rfl⟩ := Option.isSome_iff_exists.mp hs
    have hrest : ∀ x ∈ rest, x.isSome = true := fun x hx => hall x (by simp [hx])
    simp only [List.filterMap_cons, id, List.enumFrom_cons, List.countP_cons]
    rw [ih (n + 1) hrest]

/-- Claim C1 amended: the persisted total always equals the number of Loaded
slots (Locked slots are excluded, not counted as wrong); and when every slot is
Loaded — in particular whenever no Locked slot precedes a Loaded one can occur —
the persisted score equals the per-slot-index count of correct answers and the
displayed accuracy equals round(score / total * 100). With Locked slots present
the persisted score shifts answers onto filtered positions and the displayed
accuracy divides by the full array length instead of total. -/
theorem scoring_amended :
    ∀ (questions : List (Option Question)) (answers : Nat → Option Nat),
      submitTotal questions = questions.countP (fun s => s.isSome) ∧
      ((∀ s ∈ questions, s.isSome = true) →
        submitScore questions answers = slotScore questions answers ∧
        summaryAccuracy questions answers
          = jsRound ((submitScore questions answers : ℚ)
              / (submitTotal questions : ℚ) * 100)) := by
  intro questions answers
  constructor
  · exact length_filterMap_id_eq_countP questions
  · intro hall
    have hscore : submitScore questions answers = slotScore questions answers := by
      unfold submitScore slotScore
      simp only [List.enum]
      exact submitScore_enumFrom_allLoaded answers questions 0 hall
    refine ⟨hscore, ?_⟩
    have hlen : submitTotal questions = questions.length := by
      unfold submitTotal
      rw [length_filterMap_id_eq_countP questions]
      exact List.countP_eq_length.mpr (fun a ha => hall a ha)
    unfold summaryAccuracy
    rw [hscore, hlen]

/-- Fully loaded one-question slot array for the C1 witness. -/
def slotsOne : List (Option Question) := [some qSample]

/-- Answer map answering slot 0 with option 1. -/
def answersSlotZero : Nat → Option Nat := fun j => if j = 0 then some 1 else none

/-- Witness for C1 amended on a concrete fully loaded session: total matches the
Loaded count and score and accuracy match the claim's formulas. -/
theorem scoring_amended_witness :
    (submitTotal slotsOne = slotsOne.countP (fun s => s.isSome)) ∧
    (submitScore slotsOne answersSlotZero = slotScore slotsOne answersSlotZero ∧
      summaryAccuracy slotsOne answersSlotZero
        = jsRound ((submitScore slotsOne answersSlotZero : ℚ)
            / (submitTotal slotsOne : ℚ) * 100)) :=
  ⟨(scoring_amended slotsOne answersSlotZero).1,
   (scoring_amended slotsOne answersSlotZero).2 (by decide)⟩

/-- Navigation in the placeholder variant: the palette buttons call
setCurrentIndex(idx) for every slot index, Locked ones included
(TestEnvironment.tsx line 402; Previous and Next, lines 355 and 363, are the
clamped special cases), and the effect of lines 102-106 then recomputes
currentWindow as floor(currentIndex / 50) for a Full test. -/
def navigateTo (s : SlotSession) (i : Nat) : SlotSession :=
  if i < s.questions.length then
    { s with currentIndex := i,
             currentWindow := if s.testType = TestType.Full then i / 50 else s.currentWindow }
  else s

/-- A concrete fully loaded Full session at slot 0, window 0. -/
def sessionFull : SlotSession :=
  { testType := TestType.Full,
    questions := List.replicate 200 (some qSample),
    currentIndex := 0,
    currentWindow := 0,
    answers := answersEmpty,
    isSubmitted := false,
    bookmarked := bookmarksEmpty,
    timeLeft := 10800,
    saved := [],
    aborted := false }

set_option maxRecDepth 4000 in
/-- Claim C6 counterexample: in the placeholder variant currentWindow is
recomputed as floor(currentIndex / 50) on every navigation, so navigating from
slot 50 (window 1) back to slot 0 drops currentWindow from 1 to 0 — it is not
non-decreasing over time. -/
theorem currentWindow_decreases_counterexample :
    (navigateTo sessionFull 50).currentWindow = 1 ∧
    (navigateTo (navigateTo sessionFull 50) 0).currentWindow = 0 ∧
    ¬ ((navigateTo sessionFull 50).currentWindow ≤
        (navigateTo (navigateTo sessionFull 50) 0).currentWindow) := by
  decide

/-- State of the append variant of TestEnvironment (TestEnvironment.tsx second
component, lines 502-511; unnamed/part_007): questions grows by appending each
unlocked window's load result, requestedWindows logs each loadWindow call made
by handleNextWindow. -/
structure GatedSession where
  testType : TestType
  questions : List Question
  answers : Nat → Option Nat
  currentIndex : Nat
  currentWindow : Nat
  isSubmitted : Bool
  bookmarked : Nat → Bool
  saved : List (Nat × Nat)
  requestedWindows : List Nat

/-- isWindowComplete (TestEnvironment.tsx lines 588-595): every index from
windowIdx * 50 to min((windowIdx + 1) * 50, questions.length) exclusive has an
answer recorded. -/
def isWindowComplete (questions : List Question) (answers : Nat → Option Nat) (w : Nat) : Bool :=
  ((List.range (min ((w + 1) * 50) questions.length)).drop (w * 50)).all
    (fun i => (answers i).isSome)

/-- canUnlockNext (TestEnvironment.tsx line 597): a Full test, before the last
window, whose current window is complete. -/
def canUnlockNext (s : GatedSession) : Bool :=
  decide (s.testType = TestType.Full) && decide (s.currentWindow < 3) &&
    isWindowComplete s.questions s.answers s.currentWindow

/-- handleNextWindow (TestEnvironment.tsx lines 582-586): advance currentWindow
and call loadWindow on the next window, which appends that window's questions
(line 563); newQs stands for the arriving mixed batch. -/
def handleNextWindow (newQs : List Question) (s : GatedSession) : GatedSession :=
  { s with currentWindow := s.currentWindow + 1,
           requestedWindows := s.requestedWindows ++ [s.currentWindow + 1],
           questions := s.questions ++ newQs }

/-- The advanceWindow command at trigger level: the Unlock button is rendered
only when canUnlockNext holds (TestEnvironment.tsx line 821), so
handleNextWindow runs only then. The additional loadingNext disable is omitted;
it only blocks further cases. -/
def advanceWindow (newQs : List Question) (s : GatedSession) : GatedSession :=
  if canUnlockNext s then handleNextWindow newQs s else s

/-- The score of the append variant's handleSubmit (TestEnvironment.tsx lines
613-632): here questions has no null entries, so the reduce index is the slot
index. -/
def gatedScore (questions : List Question) (answers : Nat → Option Nat) : Nat :=
  (questions.enum).countP (fun p => decide (answers p.1 = some p.2.correctAnswer))

/-- The UI commands of the append variant. -/
inductive GatedCmd
  | select (o : Nat)
  | navigate (i : Nat)
  | advance (newQs : List Question)
  | submit
  | bookmark (i : Nat) (apiOk : Bool)

/-- One step of the append variant: option click (disabled once submitted,
line 768), palette navigation (line 871), the gated unlock, the submit trigger,
and bookmarking. -/
def gatedStep : GatedCmd → GatedSession → GatedSession
  | GatedCmd.select o, s =>
    if s.isSubmitted then s
    else if s.currentIndex < s.questions.length then
      { s with answers := fun j => if j = s.currentIndex then some o else s.answers j }
    else s
  | GatedCmd.navigate i, s =>
    if i < s.questions.length then { s with currentIndex := i } else s
  | GatedCmd.advance newQs, s => advanceWindow newQs s
  | GatedCmd.submit, s =>
    if s.isSubmitted then s
    else
      { s with isSubmitted := true,
               saved := s.saved
                 ++ [(gatedScore s.questions s.answers, s.questions.length)] }
  | GatedCmd.bookmark i apiOk, s =>
    if i < s.questions.length ∧ apiOk = true then
      { s with bookmarked := fun j => if j = i then true else s.bookmarked j }
    else s

/-- Claim C3: in the gated variant an advance on an incomplete current window is
a no-op, and window loads are requested only by an advance whose current window
is complete — so window n + 1 cannot begin loading before window n is complete. -/
theorem gated_advance_requires_complete :
    ∀ s : GatedSession,
      (∀ newQs, isWindowComplete s.questions s.answers s.currentWindow = false →
        gatedStep (GatedCmd.advance newQs) s = s) ∧
      (∀ cmd, (gatedStep cmd s).requestedWindows = s.requestedWindows ∨
        (isWindowComplete s.questions s.answers s.currentWindow = true ∧
          (gatedStep cmd s).requestedWindows
            = s.requestedWindows ++ [s.currentWindow + 1])) := by
  intro s
  constructor
  · intro newQs hinc
    simp [gatedStep, advanceWindow, canUnlockNext, hinc]
  · intro cmd
    cases cmd with
    | select o =>
      left
      simp only [gatedStep]
      split_ifs <;> rfl
    | navigate i =>
      left
      simp only [gatedStep]
      split_ifs <;> rfl
    | advance newQs =>
      by_cases hc : canUnlockNext s = true
      · right
        have hcomp : isWindowComplete s.questions s.answers s.currentWindow = true := by
          unfold canUnlockNext at hc
          exact (Bool.and_eq_true_iff.mp hc).2
        exact ⟨hcomp, by simp [gatedStep, advanceWindow, hc, handleNextWindow]⟩
      · left
        simp only [gatedStep, advanceWindow]
        rw [if_neg hc]
    | submit =>
      left
      simp only [gatedStep]
      split_ifs <;> rfl
    | bookmark i apiOk =>
      left
      simp only [gatedStep]
      split_ifs <;> rfl

/-- A concrete gated Full session: window 0 holds 50 questions, only slots
0 to 9 are answered. -/
def sessionGatedPartial : GatedSession :=
  { testType := TestType.Full,
    questions := List.replicate 50 qSample,
    answers := fun i => if i < 10 then some 0 else none,
    currentIndex := 9,
    currentWindow := 0,
    isSubmitted := false,
    bookmarked := bookmarksEmpty,
    saved := [],
    requestedWindows := [0] }

/-- Witness for C3, the spec's Scenario B: with window 0 answered 10 of 50, the
advance command is a no-op and the window stays 0. -/
theorem gated_advance_requires_complete_witness :
    gatedStep (GatedCmd.advance []) sessionGatedPartial = sessionGatedPartial :=
  (gated_advance_requires_complete sessionGatedPartial).1 [] (by decide)

/-- Claim C6 amended: in the gated (append) variant currentWindow is changed
only by handleNextWindow, which increments it, so it is non-decreasing under
every command; the placeholder variant instead derives it from currentIndex and
lets it decrease on backward navigation. -/
theorem gated_currentWindow_monotone :
    ∀ (cmd : GatedCmd) (s : GatedSession),
      s.currentWindow ≤ (gatedStep cmd s).currentWindow := by
  intro cmd s
  cases cmd with
  | select o =>
    simp only [gatedStep]
    split_ifs <;> simp
  | navigate i =>
    simp only [gatedStep]
    split_ifs <;> simp
  | advance newQs =>
    simp only [gatedStep, advanceWindow]
    split_ifs with h
    · simp [handleNextWindow]
    · simp
  | submit =>
    simp only [gatedStep]
    split_ifs <;> simp
  | bookmark i apiOk =>
    simp only [gatedStep]
    split_ifs <;> simp

/-- loadWindow of the placeholder variant (TestEnvironment.tsx lines 43-87) at
event level: window 0 first resets the slot array to placeholders (line 48);
every batch the generator streamed before returning or throwing has already
run the fill callback (batches); if the generator threw (failed), the catch on
lines 82-87 alerts and navigates to /dashboard, modelled by the aborted flag —
for every window index alike. On a window-0 success the timer is armed
(line 78: 180 * 60 for Full, count * 60 = 30 * 60 for Subject). -/
def loadWindowStep (wIdx : Nat) (batches : List (List Question)) (failed : Bool)
    (s : SlotSession) : SlotSession :=
  let s0 := if wIdx = 0 then { s with questions := initialSlots s.testType } else s
  let s1 := { s0 with
    questions := batches.foldl (fun qs b => fillBatch (wIdx * 50) b qs) s0.questions }
  if failed then { s1 with aborted := true }
  else if wIdx = 0 then
    { s1 with timeLeft := if s.testType = TestType.Full then 180 * 60 else 30 * 60 }
  else s1

/-- Claim C7 counterexample: the catch in loadWindow aborts the session (alert
and navigate to /dashboard) for EVERY window index, so a total load failure of
window 2 does not leave the session Active as the claim requires. -/
theorem later_window_failure_aborts :
    sessionFull.aborted = false ∧
    (loadWindowStep 2 [] true sessionFull).aborted = true := by
  constructor
  · rfl
  · rfl

theorem fillBatches_preserves (start : Nat) :
    ∀ (batches : List (List Question)) (qs : List (Option Question)) (i : Nat) (q : Question),
      qs[i]? = some (some q) →
      (batches.foldl (fun a b => fillBatch start b a) qs)[i]? = some (some q) := by
  intro batches
  induction batches with
  | nil => intro qs i q h; exact h
  | cons b rest ih =>
    intro qs i q h
    simp only [List.foldl_cons]
    exact ih (fillBatch start b qs) i q (fillBatch_preserves start b qs i q h)

/-- Claim C7 amended: a load that does not throw (a partial or empty delivery)
never aborts the session, whatever the window; a load that throws aborts the
session for EVERY window index, first or later alike; a non-throwing later
window load never reverts already Loaded slots; and submission afterwards
persists total = number of Loaded slots. -/
theorem load_failure_semantics :
    ∀ (s : SlotSession) (wIdx : Nat) (batches : List (List Question)),
      ((loadWindowStep wIdx batches false s).aborted = s.aborted) ∧
      ((loadWindowStep wIdx batches true s).aborted = true) ∧
      (wIdx ≠ 0 → ∀ (i : Nat) (q : Question), s.questions[i]? = some (some q) →
        (loadWindowStep wIdx batches false s).questions[i]? = some (some q)) ∧
      ((handleSubmitT (loadWindowStep wIdx batches false s)).saved
        = (loadWindowStep wIdx batches false s).saved
          ++ [(submitScore (loadWindowStep wIdx batches false s).questions
                 (loadWindowStep wIdx batches false s).answers,
               submitTotal (loadWindowStep wIdx batches false s).questions)]) := by
  intro s wIdx batches
  refine ⟨?_, ?_, ?_, ?_⟩
  · unfold loadWindowStep
    by_cases h0 : wIdx = 0 <;> simp [h0]
  · unfold loadWindowStep
    by_cases h0 : wIdx = 0 <;> simp [h0]
  · intro hne i q hi
    unfold loadWindowStep
    rw [if_neg hne]
    simp only [Bool.false_eq_true, if_false, if_neg hne]
    exact fillBatches_preserves (wIdx * 50) batches s.questions i q hi
  · rfl

set_option maxRecDepth 8000 in
/-- Witness for C7 amended at a concrete input: loading window 2 of a fully
loaded Full session with one one-question batch and no throw keeps the abort
flag down and keeps slot 0 Loaded. -/
theorem load_failure_semantics_witness :
    ((loadWindowStep 2 [[qSample2]] false sessionFull).aborted = sessionFull.aborted) ∧
    ((loadWindowStep 2 [[qSample2]] false sessionFull).questions[0]?
      = some (some qSample)) :=
  ⟨(load_failure_semantics sessionFull 2 [[qSample2]]).1,
   (load_failure_semantics sessionFull 2 [[qSample2]]).2.2.1 (by decide) 0 qSample
     (by show (List.replicate 200 (some qSample))[0]? = some (some qSample)
         simp)⟩

end EcetPrep
